import Mathlib

/-!
Verification of the astronum captcha core (src/submissions/astronum/captcha/captcha.js).

Shallow embedding conventions:
- JavaScript numbers are modelled as exact rationals (ℚ) for the event loop and
  ship kinematics, and as naturals (ℕ) for the constraint generator, whose
  values are small positive integers.  The steering-distance computation uses ℝ
  because the source calls Math.sqrt.
- Math.random is modelled by an oracle stream of naturals; the source's
  Math.floor(Math.random() * (max - min + 1)) + min becomes min + draw % width.
- The generator's unbounded while-loop is modelled with explicit fuel; running
  out of fuel returns Option.none (the source would keep looping).
- Callbacks are opaque identifiers; invoking one is recorded in a trace.
-/

namespace Captcha

/-! ## ConstraintGenerator: generateSpecialArray (captcha.js lines 1318-1368) -/

/-- Models getRandomInt from the source: Math.floor(Math.random()*(max-min+1))+min
yields a value in [min, max]; the random draw is supplied as r. -/
def getRandomInt (r lo hi : Nat) : Nat := lo + r % (hi - lo + 1)

/-- One candidate array of the rejection-sampling loop: arrayLength independent
draws of getRandomInt(1, maxSum - 1) (source lines 1325-1328).  round indexes
the iteration of the while-loop so every iteration consumes fresh draws. -/
def drawCandidate (oracle : Nat → Nat) (round arrayLength maxSum : Nat) : List Nat :=
  (List.range arrayLength).map fun i =>
    getRandomInt (oracle (round * arrayLength + i)) 1 (maxSum - 1)

/-- The index triples (i, j, k) with i < j < k < n enumerated by the source's
three nested for-loops (i from 0, j from i+1, k from j+1). -/
def tripleList (n : Nat) : List (Nat × Nat × Nat) :=
  (List.range n).flatMap fun i =>
    (List.range' (i + 1) (n - (i + 1))).flatMap fun j =>
      (List.range' (j + 1) (n - (j + 1))).map fun k => (i, j, k)

/-- The ok-flag check of source lines 1332-1342: every triple of entries sums to
strictly less than maxSum. -/
def sumCheck (arr : List Nat) (maxSum : Nat) : Bool :=
  (tripleList arr.length).all fun t =>
    decide (arr.getD t.1 0 + arr.getD t.2.1 0 + arr.getD t.2.2 0 < maxSum)

/-- The addition relation tested at source line 1357: within the triple of
entries (a, b, c) some two of them sum exactly to the third. -/
def solvesTriple (arr : List Nat) (t : Nat × Nat × Nat) : Bool :=
  (arr.getD t.1 0 + arr.getD t.2.1 0 == arr.getD t.2.2 0) ||
  (arr.getD t.1 0 + arr.getD t.2.2 0 == arr.getD t.2.1 0) ||
  (arr.getD t.2.1 0 + arr.getD t.2.2 0 == arr.getD t.1 0)

/-- The count of source lines 1350-1362: how many index triples satisfy the
addition relation. -/
def countTriples (arr : List Nat) : Nat :=
  ((tripleList arr.length).filter (solvesTriple arr)).length

/-- generateSpecialArray (source lines 1318-1368).  Draw a candidate; if some
triple sums to at least maxSum, redraw; otherwise accept exactly when the
addition-relation count is 1.  The source loops forever; fuel bounds the number
of iterations modelled, with none meaning the loop did not return in time. -/
def generateSpecialArray (oracle : Nat → Nat) (arrayLength maxSum : Nat) :
    Nat → Option (List Nat)
  | 0 => none
  | fuel + 1 =>
    let arr := drawCandidate oracle fuel arrayLength maxSum
    if sumCheck arr maxSum then
      if countTriples arr == 1 then some arr
      else generateSpecialArray oracle arrayLength maxSum fuel
    else generateSpecialArray oracle arrayLength maxSum fuel

/-- Oracle reproducing the spec's concrete scenario: the draws that build the
array [52, 27, 1, 15, 18, 16] for N = 6, M = 100. -/
def oracle0 : Nat → Nat := fun k => [51, 26, 0, 14, 17, 15].getD k 0

/-! ## Ship / KinematicActor (captcha.js lines 375-602) -/

/-- The closure environment of Ship(document, canvas, x, y): the canvas
dimensions, the requested center (x, y), and the derived ship dimensions
(source lines 386-387: width and height are fixed fractions of the smaller
canvas side). -/
structure ShipEnv where
  canvasW : ℚ
  canvasH : ℚ
  x : ℚ
  y : ℚ
  width : ℚ
  height : ℚ
deriving DecidableEq, Repr

/-- The mutable ship state (source lines 390-393): posX, posY, scale, angle. -/
structure ShipState where
  posX : ℚ
  posY : ℚ
  scale : ℚ
  angle : ℚ
deriving DecidableEq, Repr

/-- The initial state set by the Ship constructor (source lines 390-393):
posX = x - height/2, posY = y - width/2, scale 1.0, angle 90.0. -/
def shipInit (env : ShipEnv) : ShipState :=
  { posX := env.x - env.height / 2
    posY := env.y - env.width / 2
    scale := 1
    angle := 90 }

/-- JavaScript's % operator for a positive dividend and positive divisor, the
only case in which the source applies it (update, when angle > 360). -/
def jsFmod (a b : ℚ) : ℚ := a - b * ⌊a / b⌋

/-- The angle normalization inlined in update (source lines 433-439):
angle += degDelta already applied; then if > 360 take % 360, else if < 0 add
360 once, else leave unchanged. -/
def clampAngle (a : ℚ) : ℚ :=
  if 360 < a then jsFmod a 360
  else if a < 0 then a + 360
  else a

/-- The TURN_ANGLE constant (source line 377). -/
def TURN_ANGLE : ℚ := 2

/-- The THRUST_DISTANCE constant (source line 380). -/
def THRUST_DISTANCE : ℚ := 1

namespace Ship

/-- update(xDelta, yDelta, degDelta) (source lines 419-448): collision of the
tentative position against the canvas boundaries (the source tests height as
the extent on both axes) discards the whole update; otherwise the angle is
normalized and the position committed. -/
def update (env : ShipEnv) (s : ShipState) (xDelta yDelta degDelta : ℚ) : ShipState :=
  let px := s.posX + xDelta
  let py := s.posY + yDelta
  let collide := decide (px ≤ 0) || decide (env.canvasW ≤ px + env.height)
      || decide (py ≤ 0) || decide (env.canvasH ≤ py + env.height)
  if collide then s
  else { s with posX := px, posY := py, angle := clampAngle (s.angle + degDelta) }

/-- reset (source lines 463-469): assigns posX = x - width/2, posY =
y - height/2, scale 1.0, angle 90.0 (note the width/height swap relative to
the constructor) and then calls update(0, 0, 0). -/
def reset (env : ShipEnv) (s : ShipState) : ShipState :=
  update env
    { s with
      posX := env.x - env.width / 2
      posY := env.y - env.height / 2
      scale := 1
      angle := 90 }
    0 0 0

/-- rotateLeft (source lines 489-491): update(0, 0, -TURN_ANGLE). -/
def rotateLeft (env : ShipEnv) (s : ShipState) : ShipState :=
  update env s 0 0 (-TURN_ANGLE)

/-- rotateRight (source lines 496-498): update(0, 0, TURN_ANGLE). -/
def rotateRight (env : ShipEnv) (s : ShipState) : ShipState :=
  update env s 0 0 TURN_ANGLE

/-- backward (source lines 481-484): the body is commented out, a no-op. -/
def backward (_env : ShipEnv) (s : ShipState) : ShipState := s

end Ship

/-- The ship operations reachable through the exposed interface (reset,
rotateLeft, rotateRight, backward, forward via onKeyPress and onDrag).  The
source's forward calls move(-THRUST_DISTANCE) which calls
update(cos(rad)*d, sin(rad)*d, 0); the trigonometric displacement is
abstracted here as an arbitrary rational displacement (dx, dy) with zero
rotation delta, which is exact for every heading-related property since
update's angle change depends only on degDelta. -/
inductive ShipOp where
  | reset
  | rotateLeft
  | rotateRight
  | backward
  | forward (dx dy : ℚ)
deriving DecidableEq, Repr

/-- Interprets one ship operation. -/
def applyOp (env : ShipEnv) (s : ShipState) : ShipOp → ShipState
  | .reset => Ship.reset env s
  | .rotateLeft => Ship.rotateLeft env s
  | .rotateRight => Ship.rotateRight env s
  | .backward => Ship.backward env s
  | .forward dx dy => Ship.update env s dx dy 0

/-- Interprets a sequence of ship operations from a starting state. -/
def applyOps (env : ShipEnv) (s : ShipState) (ops : List ShipOp) : ShipState :=
  ops.foldl (applyOp env) s

/-- The claim-side boundary predicate of the combined update rule: the
tentative position crosses an arena boundary when a coordinate is ≤ 0 or the
coordinate plus the actor's extent reaches the arena dimension. -/
def tentativeCrosses (env : ShipEnv) (s : ShipState) (xDelta yDelta : ℚ) : Prop :=
  s.posX + xDelta ≤ 0 ∨ env.canvasW ≤ s.posX + xDelta + env.height ∨
  s.posY + yDelta ≤ 0 ∨ env.canvasH ≤ s.posY + yDelta + env.height

instance (env : ShipEnv) (s : ShipState) (xDelta yDelta : ℚ) :
    Decidable (tentativeCrosses env s xDelta yDelta) := by
  unfold tentativeCrosses; infer_instance

/-- A concrete environment: a 100 x 100 canvas with the ship centered at
(50, 50), so width = 10 and height = 14 by the source's sizing rule. -/
def env0 : ShipEnv :=
  { canvasW := 100, canvasH := 100, x := 50, y := 50, width := 10, height := 14 }

/-! ## EventLoop / EventScheduler (captcha.js lines 73-363) -/

/-- The Point class (source lines 28-39). -/
structure Point where
  x : ℚ
  y : ℚ
deriving DecidableEq, Repr

/-- The EventHandler class (source lines 44-61).  Callback functions are
opaque identifiers (fn); invoking one is recorded in a trace rather than
executed.  id is nullable: entries of the keyListeners and mouseListeners
templates start with a null id and are re-armed by setting it back to null. -/
structure EventHandler where
  id : Option Nat
  type : Nat
  code : Option Nat
  fn : Nat
  rep : Bool
deriving DecidableEq, Repr

/-- The EventTypes constants (source lines 18-23). -/
def EventTypes.NONE : Nat := 0

/-- EventTypes.KEY. -/
def EventTypes.KEY : Nat := 1

/-- EventTypes.MOUSE. -/
def EventTypes.MOUSE : Nat := 2

/-- EventTypes.TOUCH. -/
def EventTypes.TOUCH : Nat := 3

/-- The EVENT_INTERVAL constant in milliseconds (source line 75). -/
def EVENT_INTERVAL : ℚ := 5

/-- The RESUME_INTERVAL constant in milliseconds (source line 78). -/
def RESUME_INTERVAL : ℚ := 100

/-- The closure state of EventLoop (source lines 80-95): the four listener
collections, the id counter, the tracked drag position, and the pause state. -/
structure LoopState where
  handlers : List EventHandler
  keyListeners : List EventHandler
  mouseListeners : List EventHandler
  tickListeners : List Nat
  nextId : Nat
  curPos : Option Point
  paused : Bool
  resumeTimeRemaining : ℚ
deriving DecidableEq, Repr

namespace Loop

/-- add(type, code, fn, repeat) (source lines 107-112): bumps the id counter,
appends a handler with the fresh id, and returns that id. -/
def add (type : Nat) (code : Option Nat) (fn : Nat) (rep : Bool) (s : LoopState) :
    Nat × LoopState :=
  let curId := s.nextId + 1
  (curId,
    { s with
      nextId := s.nextId + 1
      handlers := s.handlers ++ [⟨some curId, type, code, fn, rep⟩] })

/-- The first for-loop of remove (source lines 120-125): splice out the first
handler whose id equals the argument. -/
def removeFirst (i : Option Nat) : List EventHandler → List EventHandler
  | [] => []
  | h :: t => if h.id == i then t else h :: removeFirst i t

/-- The second and third for-loops of remove (source lines 127-139): reset the
id of the first matching listener template to null so it can re-arm. -/
def nullFirst (i : Option Nat) : List EventHandler → List EventHandler
  | [] => []
  | h :: t => if h.id == i then { h with id := none } :: t else h :: nullFirst i t

/-- remove(id) (source lines 119-140). -/
def remove (i : Option Nat) (s : LoopState) : LoopState :=
  { s with
    handlers := removeFirst i s.handlers
    keyListeners := nullFirst i s.keyListeners
    mouseListeners := nullFirst i s.mouseListeners }

/-- The forEach over the handlers snapshot in run (source lines 159-165):
invoke each snapshotted handler (recorded in the returned trace, in order) and
remove it from the live list immediately after it fires if it does not
repeat. -/
def runPass : List EventHandler → LoopState → LoopState × List EventHandler
  | [], s => (s, [])
  | h :: rest, s =>
    let s1 := if h.rep then s else remove h.id s
    let p := runPass rest s1
    (p.1, h :: p.2)

/-- The result of one run() call: the new state, the tick callbacks invoked,
and the handler registrations invoked, each in invocation order. -/
structure RunResult where
  state : LoopState
  ticksFired : List Nat
  dispatched : List EventHandler
deriving DecidableEq, Repr

/-- run() (source lines 145-166): while paused or still resuming, decrement
the resume countdown by one tick interval and service nothing; otherwise
invoke every tick listener, snapshot the handlers, and invoke each snapshotted
handler, removing non-repeating ones right after they fire. -/
def run (s : LoopState) : RunResult :=
  if s.paused || decide (0 < s.resumeTimeRemaining) then
    { state :=
        if 0 < s.resumeTimeRemaining then
          { s with resumeTimeRemaining := s.resumeTimeRemaining - EVENT_INTERVAL }
        else s
      ticksFired := []
      dispatched := [] }
  else
    let p := runPass s.handlers s
    { state := p.1, ticksFired := s.tickListeners, dispatched := p.2 }

/-- addTickEvent(fn) (source lines 313-315): appends the callback to the tick
listener list; no id, no repeat flag. -/
def addTickEvent (fn : Nat) (s : LoopState) : LoopState :=
  { s with tickListeners := s.tickListeners ++ [fn] }

/-- addKeyEvent(code, fn, repeat) (source lines 284-286): appends a key
listener template with a null id. -/
def addKeyEvent (code : Nat) (fn : Nat) (rep : Bool) (s : LoopState) : LoopState :=
  { s with keyListeners := s.keyListeners ++ [⟨none, EventTypes.KEY, some code, fn, rep⟩] }

/-- pause() (source lines 323-326): sets paused and clears the countdown. -/
def pause (s : LoopState) : LoopState :=
  { s with paused := true, resumeTimeRemaining := 0 }

/-- resume() (source lines 334-337): arms the resume countdown and clears the
paused flag. -/
def resume (s : LoopState) : LoopState :=
  { s with resumeTimeRemaining := RESUME_INTERVAL, paused := false }

/-- One scheduler tick viewed as a state transformer. -/
def stepState (s : LoopState) : LoopState := (run s).state

end Loop

/-! ## Steering: the tail of onDrag (captcha.js lines 1185-1194) -/

/-- What the close-enough branch of onDrag does in one tick: nothing, or one
forward thrust of a fixed distance. -/
inductive DragAction where
  | stay
  | thrust (d : ℝ)

/-- The tail of onDrag (source lines 1185-1194), reached when the heading is
judged close enough: the source computes distance = Math.sqrt(dx + dy) — the
square root of the raw coordinate-delta sum, not of the sum of squares — and
calls forward() (one thrust of THRUST_DISTANCE) only when that quantity is
not below the minimum thrust distance. -/
noncomputable def dragCloseBranch (dx dy : ℝ) : DragAction :=
  if Real.sqrt (dx + dy) < ((THRUST_DISTANCE : ℚ) : ℝ) then DragAction.stay
  else DragAction.thrust ((THRUST_DISTANCE : ℚ) : ℝ)

end Captcha

namespace Captcha

lemma mem_tripleList {n i j k : Nat} :
    (i, j, k) ∈ tripleList n ↔ i < j ∧ j < k ∧ k < n := by
  simp only [tripleList, List.mem_flatMap, List.mem_range, List.mem_range'_1,
    List.mem_map, Prod.mk.injEq]
  constructor
  · rintro ⟨a, ha, b, ⟨hb1, hb2⟩, c, ⟨hc1, hc2⟩, rfl, rfl, rfl⟩
    omega
  · rintro ⟨hij, hjk, hk⟩
    exact ⟨i, by omega, j, ⟨by omega, by omega⟩, k, ⟨by omega, by omega⟩, rfl, rfl, rfl⟩

lemma generate_some {oracle : Nat → Nat} {N M fuel : Nat} {arr : List Nat}
    (h : generateSpecialArray oracle N M fuel = some arr) :
    sumCheck arr M = true ∧ countTriples arr = 1 ∧
      ∃ r, arr = drawCandidate oracle r N M := by
  induction fuel with
  | zero => simp [generateSpecialArray] at h
  | succ f ih =>
    rw [generateSpecialArray] at h
    by_cases h1 : sumCheck (drawCandidate oracle f N M) M
    · rw [if_pos h1] at h
      by_cases h2 : countTriples (drawCandidate oracle f N M) = 1
      · rw [if_pos (by simpa using h2)] at h
        obtain rfl := Option.some.injEq _ _ ▸ h
        exact ⟨h1, h2, f, rfl⟩
      · rw [if_neg (by simpa using h2)] at h
        exact ih h
    · rw [if_neg h1] at h
      exact ih h

/-- C9: for valid inputs (N ≥ 3, M > 3N), any array the generator returns has
exactly N entries, each in the inclusive range [1, M - 1]. -/
theorem generator_length_and_range {oracle : Nat → Nat} {N M fuel : Nat} {arr : List Nat}
    (hN : 3 ≤ N) (hM : 3 * N < M)
    (h : generateSpecialArray oracle N M fuel = some arr) :
    arr.length = N ∧ ∀ x ∈ arr, 1 ≤ x ∧ x ≤ M - 1 := by
  obtain ⟨-, -, r, rfl⟩ := generate_some h
  refine ⟨by simp [drawCandidate], ?_⟩
  intro x hx
  simp only [drawCandidate, getRandomInt, List.mem_map, List.mem_range] at hx
  obtain ⟨i, -, rfl⟩ := hx
  have hmod : oracle (r * N + i) % (M - 1 - 1 + 1) < M - 1 - 1 + 1 :=
    Nat.mod_lt _ (by omega)
  omega

/-- Witness for C9 at the spec's concrete scenario N = 6, M = 100. -/
theorem generator_length_and_range_witness :
    ([52, 27, 1, 15, 18, 16] : List Nat).length = 6 ∧
      ∀ x ∈ ([52, 27, 1, 15, 18, 16] : List Nat), 1 ≤ x ∧ x ≤ 100 - 1 :=
  @generator_length_and_range oracle0 6 100 1 [52, 27, 1, 15, 18, 16]
    (by decide) (by decide) (by decide)

/-- C2: no triple of entries of a returned array sums to maxSum or more. -/
theorem generator_sum_bound {oracle : Nat → Nat} {N M fuel : Nat} {arr : List Nat}
    (h : generateSpecialArray oracle N M fuel = some arr)
    (i j k : Nat) (hij : i < j) (hjk : j < k) (hk : k < arr.length) :
    arr.getD i 0 + arr.getD j 0 + arr.getD k 0 < M := by
  obtain ⟨hsum, -, -⟩ := generate_some h
  rw [sumCheck] at hsum
  have := List.all_eq_true.mp hsum (i, j, k) (mem_tripleList.mpr ⟨hij, hjk, hk⟩)
  simpa using this

/-- Witness for C2: in the concrete scenario the triple at indices (0, 1, 2)
sums below 100. -/
theorem generator_sum_bound_witness :
    ([52, 27, 1, 15, 18, 16] : List Nat).getD 0 0 +
      ([52, 27, 1, 15, 18, 16] : List Nat).getD 1 0 +
      ([52, 27, 1, 15, 18, 16] : List Nat).getD 2 0 < 100 :=
  @generator_sum_bound oracle0 6 100 1 [52, 27, 1, 15, 18, 16]
    (by decide) 0 1 2 (by decide) (by decide) (by decide)

/-- C1: a returned array has exactly one index triple i < j < k whose entries
satisfy the addition relation for some assignment of the sum role; every other
triple satisfies it for no assignment. -/
theorem generator_unique_triple {oracle : Nat → Nat} {N M fuel : Nat} {arr : List Nat}
    (h : generateSpecialArray oracle N M fuel = some arr) :
    ∃! t : Nat × Nat × Nat,
      (t.1 < t.2.1 ∧ t.2.1 < t.2.2 ∧ t.2.2 < arr.length) ∧
      (arr.getD t.1 0 + arr.getD t.2.1 0 = arr.getD t.2.2 0 ∨
       arr.getD t.1 0 + arr.getD t.2.2 0 = arr.getD t.2.1 0 ∨
       arr.getD t.2.1 0 + arr.getD t.2.2 0 = arr.getD t.1 0) := by
  obtain ⟨-, hcount, -⟩ := generate_some h
  rw [countTriples] at hcount
  obtain ⟨t0, ht0⟩ := List.length_eq_one.mp hcount
  have ht0mem : t0 ∈ (tripleList arr.length).filter (solvesTriple arr) := by
    rw [ht0]; exact List.mem_singleton.mpr rfl
  rw [List.mem_filter] at ht0mem
  obtain ⟨i0, j0, k0⟩ := t0
  refine ⟨(i0, j0, k0), ⟨mem_tripleList.mp ht0mem.1, ?_⟩, ?_⟩
  · have := ht0mem.2
    simpa [solvesTriple, or_assoc] using this
  · rintro ⟨i, j, k⟩ ⟨hb, hs⟩
    have hmem : (i, j, k) ∈ (tripleList arr.length).filter (solvesTriple arr) := by
      rw [List.mem_filter]
      exact ⟨mem_tripleList.mpr hb, by simpa [solvesTriple, or_assoc] using hs⟩
    rw [ht0] at hmem
    exact List.mem_singleton.mp hmem

/-- Witness for C1: the concrete scenario's unique solving triple (1 + 15 = 16
at indices (2, 3, 5)). -/
theorem generator_unique_triple_witness :
    ∃! t : Nat × Nat × Nat,
      (t.1 < t.2.1 ∧ t.2.1 < t.2.2 ∧ t.2.2 < ([52, 27, 1, 15, 18, 16] : List Nat).length) ∧
      (([52, 27, 1, 15, 18, 16] : List Nat).getD t.1 0 +
         ([52, 27, 1, 15, 18, 16] : List Nat).getD t.2.1 0 =
           ([52, 27, 1, 15, 18, 16] : List Nat).getD t.2.2 0 ∨
       ([52, 27, 1, 15, 18, 16] : List Nat).getD t.1 0 +
         ([52, 27, 1, 15, 18, 16] : List Nat).getD t.2.2 0 =
           ([52, 27, 1, 15, 18, 16] : List Nat).getD t.2.1 0 ∨
       ([52, 27, 1, 15, 18, 16] : List Nat).getD t.2.1 0 +
         ([52, 27, 1, 15, 18, 16] : List Nat).getD t.2.2 0 =
           ([52, 27, 1, 15, 18, 16] : List Nat).getD t.1 0) :=
  @generator_unique_triple oracle0 6 100 1 [52, 27, 1, 15, 18, 16] (by decide)

lemma jsFmod_360_bounds (a : ℚ) : 0 ≤ jsFmod a 360 ∧ jsFmod a 360 < 360 := by
  have he : jsFmod a 360 = 360 * Int.fract (a / 360) := by
    rw [jsFmod, Int.fract]
    field_simp
  constructor
  · rw [he]
    exact mul_nonneg (by norm_num) (Int.fract_nonneg _)
  · rw [he]
    have := Int.fract_lt_one (a / 360)
    nlinarith

lemma clampAngle_bounds {a : ℚ} (h : -360 ≤ a) :
    0 ≤ clampAngle a ∧ clampAngle a ≤ 360 := by
  rw [clampAngle]
  split_ifs with h1 h2
  · exact ⟨(jsFmod_360_bounds a).1, le_of_lt (jsFmod_360_bounds a).2⟩
  · constructor <;> linarith
  · constructor <;> linarith

lemma update_angle_bounds (env : ShipEnv) (s : ShipState) (xD yD dD : ℚ)
    (h0 : 0 ≤ s.angle) (h1 : s.angle ≤ 360) (hd : -360 ≤ dD) :
    0 ≤ (Ship.update env s xD yD dD).angle ∧ (Ship.update env s xD yD dD).angle ≤ 360 := by
  simp only [Ship.update]
  split
  · exact ⟨h0, h1⟩
  · exact clampAngle_bounds (by linarith)

lemma applyOp_angle_bounds (env : ShipEnv) (s : ShipState) (op : ShipOp)
    (h0 : 0 ≤ s.angle) (h1 : s.angle ≤ 360) :
    0 ≤ (applyOp env s op).angle ∧ (applyOp env s op).angle ≤ 360 := by
  cases op with
  | reset =>
    exact update_angle_bounds env _ 0 0 0 (by norm_num) (by norm_num) (by norm_num)
  | rotateLeft =>
    exact update_angle_bounds env s 0 0 (-TURN_ANGLE) h0 h1 (by norm_num [TURN_ANGLE])
  | rotateRight =>
    exact update_angle_bounds env s 0 0 TURN_ANGLE h0 h1 (by norm_num [TURN_ANGLE])
  | backward => exact ⟨h0, h1⟩
  | forward dx dy =>
    exact update_angle_bounds env s dx dy 0 h0 h1 (by norm_num)

/-- C3 (amended): along every sequence of exposed actor operations from the
initial pose, the heading stays in the closed interval [0, 360]. -/
theorem heading_stays_in_closed_interval (env : ShipEnv) (ops : List ShipOp) :
    0 ≤ (applyOps env (shipInit env) ops).angle ∧
      (applyOps env (shipInit env) ops).angle ≤ 360 := by
  suffices h : ∀ s : ShipState, 0 ≤ s.angle → s.angle ≤ 360 →
      0 ≤ (applyOps env s ops).angle ∧ (applyOps env s ops).angle ≤ 360 by
    exact h _ (by norm_num [shipInit]) (by norm_num [shipInit])
  induction ops with
  | nil => exact fun s h0 h1 => ⟨h0, h1⟩
  | cons op rest ih =>
    intro s h0 h1
    have hstep := applyOp_angle_bounds env s op h0 h1
    exact ih _ hstep.1 hstep.2

lemma update_eq_boundary (env : ShipEnv) (s : ShipState) (xDelta yDelta degDelta : ℚ) :
    Ship.update env s xDelta yDelta degDelta =
      if tentativeCrosses env s xDelta yDelta then s
      else { s with posX := s.posX + xDelta, posY := s.posY + yDelta,
                    angle := clampAngle (s.angle + degDelta) } := by
  have hb : (decide (s.posX + xDelta ≤ 0)
      || decide (env.canvasW ≤ s.posX + xDelta + env.height)
      || decide (s.posY + yDelta ≤ 0)
      || decide (env.canvasH ≤ s.posY + yDelta + env.height)) = true
      ↔ tentativeCrosses env s xDelta yDelta := by
    simp [tentativeCrosses, or_assoc]
  simp only [Ship.update]
  split
  · next hcol => rw [if_pos (hb.mp hcol)]
  · next hcol => rw [if_neg fun hc => hcol (hb.mpr hc)]

lemma rotateRight_iterate (n : Nat) (hn : n ≤ 135) :
    applyOps env0 (shipInit env0) (List.replicate n ShipOp.rotateRight) =
      { posX := 43, posY := 45, scale := 1, angle := 90 + 2 * n } := by
  induction n with
  | zero =>
    show shipInit env0 = _
    norm_num [shipInit, env0]
  | succ m ih =>
    have hm : m ≤ 135 := by omega
    have hmq : (m : ℚ) ≤ 134 := by exact_mod_cast (by omega : m ≤ 134)
    rw [List.replicate_succ']
    show applyOps env0 (shipInit env0) (List.replicate m ShipOp.rotateRight ++ [ShipOp.rotateRight]) = _
    rw [applyOps, List.foldl_append]
    rw [show List.foldl (applyOp env0) (shipInit env0) (List.replicate m ShipOp.rotateRight) =
        applyOps env0 (shipInit env0) (List.replicate m ShipOp.rotateRight) from rfl, ih hm]
    show Ship.rotateRight env0 _ = _
    rw [Ship.rotateRight, update_eq_boundary,
      if_neg (by norm_num [tentativeCrosses, env0])]
    rw [clampAngle, if_neg (by norm_num [TURN_ANGLE]; linarith), if_neg (by norm_num [TURN_ANGLE]; linarith)]
    norm_num [TURN_ANGLE]
    ring

/-- C3 (counterexample): the heading does not stay in the half-open interval
[0, 360).  Starting from the initial heading 90, 135 consecutive right
rotations of TURN_ANGLE = 2 land the heading exactly on 360, which the
normalization leaves unchanged (360 > 360 and 360 < 0 are both false). -/
theorem heading_reaches_360 :
    (applyOps env0 (shipInit env0) (List.replicate 135 ShipOp.rotateRight)).angle = 360 ∧
    ¬ (applyOps env0 (shipInit env0) (List.replicate 135 ShipOp.rotateRight)).angle < 360 := by
  rw [rotateRight_iterate 135 le_rfl]
  norm_num

/-- C4: every requested update is validated atomically against the arena
boundary before any field changes: if the tentative position crosses a
boundary the prior state is returned unchanged (including any accompanying
rotation), otherwise the position delta and normalized rotation are committed
and the scale is untouched. -/
theorem ship_update_atomic (env : ShipEnv) (s : ShipState) (xDelta yDelta degDelta : ℚ) :
    Ship.update env s xDelta yDelta degDelta =
      if tentativeCrosses env s xDelta yDelta then s
      else { s with posX := s.posX + xDelta, posY := s.posY + yDelta,
                    angle := clampAngle (s.angle + degDelta) } :=
  update_eq_boundary env s xDelta yDelta degDelta

/-- C8 (code bug): reset restores heading 90 and scale 1 but not the
construction-time position.  With a 100 x 100 canvas and center (50, 50)
(width 10, height 14), the constructor sets posX = x - height/2 = 43 and
posY = y - width/2 = 45, while reset sets posX = x - width/2 = 45 and
posY = y - height/2 = 43: the two half-extents are swapped. -/
theorem reset_position_differs :
    (Ship.reset env0 (shipInit env0)).angle = 90 ∧
    (Ship.reset env0 (shipInit env0)).scale = 1 ∧
    (shipInit env0).posX = 43 ∧ (shipInit env0).posY = 45 ∧
    (Ship.reset env0 (shipInit env0)).posX = 45 ∧
    (Ship.reset env0 (shipInit env0)).posY = 43 ∧
    (Ship.reset env0 (shipInit env0)).posX ≠ (shipInit env0).posX := by
  rw [Ship.reset, update_eq_boundary, if_neg (by norm_num [tentativeCrosses, shipInit, env0])]
  norm_num [clampAngle, jsFmod, shipInit, env0]

lemma runPass_trace (l : List EventHandler) (s : LoopState) :
    (Loop.runPass l s).2 = l := by
  induction l generalizing s with
  | nil => rfl
  | cons h rest ih => simp [Loop.runPass, ih]

lemma runPass_tickListeners (l : List EventHandler) (s : LoopState) :
    (Loop.runPass l s).1.tickListeners = s.tickListeners := by
  induction l generalizing s with
  | nil => rfl
  | cons h rest ih =>
    simp only [Loop.runPass]
    rw [ih]
    by_cases hr : h.rep <;> simp [hr, Loop.remove]

lemma removeFirst_sublist (i : Option Nat) (l : List EventHandler) :
    List.Sublist (Loop.removeFirst i l) l := by
  induction l with
  | nil => exact List.Sublist.refl []
  | cons h t ih =>
    rw [Loop.removeFirst]
    by_cases hh : (h.id == i) = true
    · rw [if_pos hh]; exact List.sublist_cons_self h t
    · rw [if_neg hh]; exact ih.cons₂ h

lemma countP_removeFirst_le (i : Option Nat) (l : List EventHandler)
    (p : EventHandler → Bool) :
    (Loop.removeFirst i l).countP p ≤ l.countP p :=
  (removeFirst_sublist i l).countP_le p

lemma countP_removeFirst_self {i : Option Nat} {l : List EventHandler}
    (h : (l.countP fun g => g.id == i) ≤ 1) :
    ((Loop.removeFirst i l).countP fun g => g.id == i) = 0 := by
  induction l with
  | nil => rfl
  | cons a t ih =>
    rw [List.countP_cons] at h
    rw [Loop.removeFirst]
    by_cases ha : (a.id == i) = true
    · rw [if_pos ha]
      rw [ha] at h
      simp only [if_pos] at h
      omega
    · have ha' : (a.id == i) = false := Bool.eq_false_iff.mpr ha
      rw [if_neg ha, List.countP_cons, ha']
      rw [ha'] at h
      simp only [Bool.false_eq_true, if_false, Nat.add_zero] at h ⊢
      exact ih h

lemma runPass_countP_le (l : List EventHandler) (s : LoopState)
    (p : EventHandler → Bool) :
    (Loop.runPass l s).1.handlers.countP p ≤ s.handlers.countP p := by
  induction l generalizing s with
  | nil => exact le_refl _
  | cons h rest ih =>
    simp only [Loop.runPass]
    by_cases hr : h.rep
    · simpa [hr] using ih s
    · simp only [hr, if_neg]
      exact le_trans (ih _) (countP_removeFirst_le _ _ _)

lemma runPass_removes (l : List EventHandler) (s : LoopState) (i : Option Nat)
    (hbound : (s.handlers.countP fun g => g.id == i) ≤ 1)
    (hw : ∃ h ∈ l, h.id = i ∧ h.rep = false) :
    ((Loop.runPass l s).1.handlers.countP fun g => g.id == i) = 0 := by
  induction l generalizing s with
  | nil => simp at hw
  | cons h rest ih =>
    obtain ⟨h', hmem, hid, hrep⟩ := hw
    simp only [Loop.runPass]
    rcases List.mem_cons.mp hmem with rfl | hmem'
    · rw [hrep]
      simp only [Bool.false_eq_true, if_false]
      have hzero : ((Loop.remove h'.id s).handlers.countP fun g => g.id == i) = 0 := by
        rw [Loop.remove]
        simpa [hid] using countP_removeFirst_self hbound
      have := runPass_countP_le rest (Loop.remove h'.id s) (fun g => g.id == i)
      omega
    · have hb1 : (((if h.rep then s else Loop.remove h.id s)).handlers.countP
          fun g => g.id == i) ≤ 1 := by
        by_cases hr : h.rep
        · simpa [hr] using hbound
        · simp only [hr, if_neg, Bool.false_eq_true, if_false, Loop.remove]
          exact le_trans (countP_removeFirst_le _ _ _) hbound
      exact ih _ hb1 ⟨h', hmem', hid, hrep⟩

lemma countP_id_eq_one {l : List EventHandler}
    (hnd : (l.map EventHandler.id).Nodup) {h : EventHandler} (hm : h ∈ l) :
    (l.countP fun g => g.id == h.id) = 1 := by
  induction l with
  | nil => cases hm
  | cons a t ih =>
    rw [List.map_cons, List.nodup_cons] at hnd
    rw [List.countP_cons]
    rcases List.mem_cons.mp hm with heq | hm'
    · subst heq
      have hz : (t.countP fun g => g.id == h.id) = 0 := by
        rw [List.countP_eq_zero]
        intro g hg hgid
        have hgid' : g.id = h.id := by simpa using hgid
        exact hnd.1 (by rw [← hgid']; exact List.mem_map_of_mem EventHandler.id hg)
      simp [hz]
    · have hne : (a.id == h.id) = false := by
        rw [Bool.eq_false_iff]
        intro hcon
        have haid : a.id = h.id := by simpa using hcon
        exact hnd.1 (by rw [haid]; exact List.mem_map_of_mem EventHandler.id hm')
      rw [hne]
      simpa using ih hnd.2 hm'

lemma run_not_suppressed (s : LoopState) (hpause : s.paused = false)
    (hrc : s.resumeTimeRemaining ≤ 0) :
    Loop.run s = { state := (Loop.runPass s.handlers s).1,
                   ticksFired := s.tickListeners,
                   dispatched := (Loop.runPass s.handlers s).2 } := by
  rw [Loop.run, if_neg]
  rw [hpause]
  simp [not_lt.mpr hrc]

lemma run_silent (s : LoopState) (hpause : s.paused = false)
    (hpos : 0 < s.resumeTimeRemaining) :
    Loop.run s =
      { state := { s with resumeTimeRemaining := s.resumeTimeRemaining - EVENT_INTERVAL },
        ticksFired := [], dispatched := [] } := by
  rw [Loop.run, if_pos (by simp [hpause, hpos]), if_pos hpos]

/-- C6 (amended): a handler in the handlers list marked non-repeating is
invoked exactly once by a dispatch pass while RUNNING, is removed from the
handlers list immediately after it fires, and stays absent over any further
ticks (run never adds handlers). -/
theorem nonrepeating_handler_fires_once (s : LoopState) (h : EventHandler)
    (hpause : s.paused = false) (hrc : s.resumeTimeRemaining ≤ 0)
    (hmem : h ∈ s.handlers) (hrep : h.rep = false)
    (hnd : (s.handlers.map EventHandler.id).Nodup) :
    ((Loop.run s).dispatched.countP fun g => g.id == h.id) = 1 ∧
    (∀ g ∈ (Loop.run s).state.handlers, (g.id == h.id) = false) ∧
    (∀ t : LoopState, (∀ g ∈ t.handlers, (g.id == h.id) = false) →
      ∀ g ∈ (Loop.run t).state.handlers, (g.id == h.id) = false) := by
  refine ⟨?_, ?_, ?_⟩
  · rw [run_not_suppressed s hpause hrc]
    rw [runPass_trace]
    exact countP_id_eq_one hnd hmem
  · rw [run_not_suppressed s hpause hrc]
    have hz := runPass_removes s.handlers s h.id
      (le_of_eq (countP_id_eq_one hnd hmem)) ⟨h, hmem, rfl, hrep⟩
    intro g hg
    have := List.countP_eq_zero.mp hz g hg
    simpa using this
  · intro t ht g hg
    rw [Loop.run] at hg
    by_cases hguard : (t.paused || decide (0 < t.resumeTimeRemaining)) = true
    · rw [if_pos hguard] at hg
      by_cases h0 : 0 < t.resumeTimeRemaining
      · rw [if_pos h0] at hg
        exact ht g hg
      · rw [if_neg h0] at hg
        exact ht g hg
    · rw [if_neg hguard] at hg
      have hz : (t.handlers.countP fun g => g.id == h.id) = 0 :=
        List.countP_eq_zero.mpr fun g hg hgid => by
          rw [ht g hg] at hgid; exact Bool.false_ne_true hgid
      have hle := runPass_countP_le t.handlers t (fun g => g.id == h.id)
      rw [hz] at hle
      have := List.countP_eq_zero.mp (Nat.le_zero.mp hle) g hg
      simpa using this

/-- A one-element handlers list for exercising the dispatch pass. -/
def handlerW : EventHandler :=
  { id := some 1, type := EventTypes.NONE, code := none, fn := 5, rep := false }

/-- A running scheduler state holding only handlerW. -/
def stateW : LoopState :=
  { handlers := [handlerW], keyListeners := [], mouseListeners := [],
    tickListeners := [], nextId := 1, curPos := none, paused := false,
    resumeTimeRemaining := 0 }

/-- Witness for C6 (amended): the concrete non-repeating handler fires exactly
once in one dispatch pass. -/
theorem nonrepeating_handler_fires_once_witness :
    ((Loop.run stateW).dispatched.countP fun g => g.id == handlerW.id) = 1 :=
  (nonrepeating_handler_fires_once stateW handlerW rfl (le_refl 0)
    (by simp [stateW]) rfl (by simp [stateW])).1

/-- A running scheduler state holding one tick callback (the only way the
source registers a tick handler: addTickEvent, which takes no repeat flag). -/
def stateTick : LoopState :=
  { handlers := [], keyListeners := [], mouseListeners := [],
    tickListeners := [7], nextId := 0, curPos := none, paused := false,
    resumeTimeRemaining := 0 }

/-- C6 (counterexample): a tick handler cannot behave as non-repeating.  The
only registration path for tick callbacks is addTickEvent; the resulting
callback fires on the first dispatch, fires again on the second, and is still
registered afterwards, refuting that a (one-shot) tick handler fires exactly
once and is absent from the registration set on later ticks. -/
theorem tick_callback_fires_twice :
    (Loop.run stateTick).ticksFired = [7] ∧
    (Loop.run (Loop.run stateTick).state).ticksFired = [7] ∧
    (Loop.run (Loop.run stateTick).state).state.tickListeners = [7] := by
  have h1 : Loop.run stateTick = { state := stateTick, ticksFired := [7], dispatched := [] } := by
    rw [run_not_suppressed stateTick rfl (le_refl 0)]
    rfl
  refine ⟨by rw [h1], ?_, ?_⟩
  · show (Loop.run (Loop.run stateTick).state).ticksFired = [7]
    rw [h1]
    show (Loop.run stateTick).ticksFired = [7]
    rw [h1]
  · show (Loop.run (Loop.run stateTick).state).state.tickListeners = [7]
    rw [h1]
    show (Loop.run stateTick).state.tickListeners = [7]
    rw [h1]
    rfl

/-- C10: tick callbacks are never removable and always fire: remove(id) leaves
the tick-listener list unchanged for every id, and a tick processed while
RUNNING invokes exactly the tick-listener list, which it leaves unchanged. -/
theorem tick_listeners_permanent (s : LoopState) (i : Option Nat)
    (hpause : s.paused = false) (hrc : s.resumeTimeRemaining ≤ 0) :
    (Loop.remove i s).tickListeners = s.tickListeners ∧
    (Loop.run s).ticksFired = s.tickListeners ∧
    (Loop.run s).state.tickListeners = s.tickListeners := by
  refine ⟨rfl, ?_, ?_⟩
  · rw [run_not_suppressed s hpause hrc]
  · rw [run_not_suppressed s hpause hrc]
    exact runPass_tickListeners s.handlers s

/-- A running scheduler state with two tick callbacks. -/
def stateT10 : LoopState :=
  { handlers := [], keyListeners := [], mouseListeners := [],
    tickListeners := [3, 4], nextId := 2, curPos := none, paused := false,
    resumeTimeRemaining := 0 }

/-- Witness for C10 at a concrete state and a concrete removal id. -/
theorem tick_listeners_permanent_witness :
    (Loop.remove (some 9) stateT10).tickListeners = stateT10.tickListeners ∧
    (Loop.run stateT10).ticksFired = stateT10.tickListeners ∧
    (Loop.run stateT10).state.tickListeners = stateT10.tickListeners :=
  tick_listeners_permanent stateT10 (some 9) rfl (le_refl 0)

lemma resume_iterate (s : LoopState) (k : Nat) (hk : k ≤ 20) :
    Loop.stepState^[k] (Loop.resume (Loop.pause s)) =
      { s with paused := false, resumeTimeRemaining := 100 - 5 * k } := by
  induction k with
  | zero =>
    rw [Function.iterate_zero_apply]
    show ({ s with paused := false, resumeTimeRemaining := RESUME_INTERVAL } : LoopState) = _
    norm_num [RESUME_INTERVAL]
  | succ m ih =>
    rw [Function.iterate_succ_apply', ih (by omega)]
    have hpos : (0:ℚ) < 100 - 5 * m := by
      have : (m:ℚ) ≤ 19 := by exact_mod_cast (by omega : m ≤ 19)
      linarith
    rw [Loop.stepState]
    rw [run_silent ({ s with paused := false, resumeTimeRemaining := (100:ℚ) - 5 * (m:ℚ) })
      rfl (by simpa using hpos)]
    show ({ s with paused := false, resumeTimeRemaining := (100:ℚ) - 5 * (m:ℚ) - EVENT_INTERVAL } : LoopState) = _
    congr 1
    simp only [EVENT_INTERVAL]
    push_cast
    ring

/-- C5: after pause() then resume(), each of the 20 ticks of the debounce
window (RESUME_INTERVAL / EVENT_INTERVAL) fires no callback at all, and the
first tick after the window dispatches the tick listeners and the handlers
list exactly as registered. -/
theorem resume_debounce_window (s : LoopState) (k : Nat) (hk : k < 20) :
    (Loop.run (Loop.stepState^[k] (Loop.resume (Loop.pause s)))).ticksFired = [] ∧
    (Loop.run (Loop.stepState^[k] (Loop.resume (Loop.pause s)))).dispatched = [] ∧
    (Loop.run (Loop.stepState^[20] (Loop.resume (Loop.pause s)))).ticksFired =
      s.tickListeners ∧
    (Loop.run (Loop.stepState^[20] (Loop.resume (Loop.pause s)))).dispatched =
      s.handlers := by
  rw [resume_iterate s k (le_of_lt hk), resume_iterate s 20 le_rfl]
  have hpos : (0:ℚ) < 100 - 5 * k := by
    have : (k:ℚ) ≤ 19 := by exact_mod_cast (by omega : k ≤ 19)
    linarith
  rw [run_silent ({ s with paused := false, resumeTimeRemaining := (100:ℚ) - 5 * (k:ℚ) })
    rfl (by simpa using hpos)]
  rw [run_not_suppressed ({ s with paused := false, resumeTimeRemaining := (100:ℚ) - 5 * ((20:ℕ):ℚ) }) rfl (by norm_num)]
  exact ⟨rfl, rfl, rfl, runPass_trace _ _⟩

/-- A running scheduler state with one repeating handler and one tick
callback, for exercising the pause/resume window. -/
def stateD : LoopState :=
  { handlers := [{ id := some 1, type := EventTypes.NONE, code := none, fn := 9, rep := true }],
    keyListeners := [], mouseListeners := [], tickListeners := [4],
    nextId := 1, curPos := none, paused := false, resumeTimeRemaining := 0 }

/-- Witness for C5 at the concrete state stateD and tick k = 0. -/
theorem resume_debounce_window_witness :
    (Loop.run (Loop.stepState^[0] (Loop.resume (Loop.pause stateD)))).ticksFired = [] ∧
    (Loop.run (Loop.stepState^[0] (Loop.resume (Loop.pause stateD)))).dispatched = [] ∧
    (Loop.run (Loop.stepState^[20] (Loop.resume (Loop.pause stateD)))).ticksFired =
      stateD.tickListeners ∧
    (Loop.run (Loop.stepState^[20] (Loop.resume (Loop.pause stateD)))).dispatched =
      stateD.handlers :=
  resume_debounce_window stateD 0 (by decide)

/-- C7 (code bug): the steering guard does not compare the Euclidean distance.
At the front-to-target offset (dx, dy) = (2, -3/2), the code's quantity
Math.sqrt(dx + dy) = sqrt(1/2) is below the minimum thrust distance 1, so the
close-enough branch does nothing that tick, although the Euclidean distance
sqrt(dx² + dy²) = 5/2 is at least the minimum thrust distance, for which the
claim requires moveForward to be called. -/
theorem drag_distance_not_euclidean :
    dragCloseBranch 2 (-(3/2)) = DragAction.stay ∧
    ((THRUST_DISTANCE : ℚ) : ℝ) ≤ Real.sqrt ((2:ℝ)^2 + (-(3/2):ℝ)^2) := by
  have hthrust : ((THRUST_DISTANCE : ℚ) : ℝ) = 1 := by norm_num [THRUST_DISTANCE]
  constructor
  · have hlt : Real.sqrt ((2:ℝ) + -(3/2)) < ((THRUST_DISTANCE : ℚ) : ℝ) := by
      rw [hthrust, show ((2:ℝ) + -(3/2)) = 1/2 by norm_num]
      calc Real.sqrt (1/2) < Real.sqrt 1 := Real.sqrt_lt_sqrt (by norm_num) (by norm_num)
        _ = 1 := Real.sqrt_one
    rw [dragCloseBranch, if_pos hlt]
  · rw [hthrust, show ((2:ℝ)^2 + (-(3/2):ℝ)^2) = (5/2)^2 by norm_num,
      Real.sqrt_sq (by norm_num : (0:ℝ) ≤ 5/2)]
    norm_num

end Captcha
